import Mathlib

set_option autoImplicit false
set_option maxHeartbeats 4000000

/-!
Shallow embedding of the employee-calendar-backend repository
(`app/main.py`, `app/models.py`).  The durable store (the
`calendar_entries` table of `app/models.py`) is modelled as a
`List CalendarEntry` in insertion order: `session.add` appends a row,
`.scalars().first()` takes the first matching row, a bulk `delete`
filters rows out.  The surrogate autoincrement `id` column is not
modelled; list position plays its role.  Python's `str.strip` is
modelled by `pyStrip`, and `datetime.date` by a `(year, month, day)`
triple of naturals.
-/

/-- Python's ASCII whitespace characters, as stripped by `str.strip()`. -/
def isPyWhitespace (c : Char) : Bool :=
  c == ' ' || c == '\t' || c == '\n' || c == '\r' || c == '\x0b' || c == '\x0c'

/-- Drops leading Python whitespace from a character list. -/
def dropLeadingWS : List Char → List Char
  | [] => []
  | c :: rest => if isPyWhitespace c then dropLeadingWS rest else c :: rest

/-- Python `str.strip()`: removes leading and trailing whitespace. -/
def pyStrip (s : String) : String :=
  String.mk (dropLeadingWS (dropLeadingWS s.toList.reverse).reverse)

/-- A Python `datetime.date` value, as stored in the `date` column. -/
structure PyDate where
  year : Nat
  month : Nat
  day : Nat
deriving DecidableEq

/-- Numeric value of a decimal digit character. -/
def digitVal (c : Char) : Nat := c.toNat - 48

/-- Reads a string of shape `YYYY-MM-DD` (the anchored regex
`^\d{4}-\d{2}-\d{2}$`, `DATE_RE` in `app/main.py`) into its three
numeric components; `none` when the string does not match. -/
def dateChars (s : String) : Option (Nat × Nat × Nat) :=
  match s.toList with
  | [y1, y2, y3, y4, c1, m1, m2, c2, d1, d2] =>
    if y1.isDigit && y2.isDigit && y3.isDigit && y4.isDigit && c1 == '-' &&
       m1.isDigit && m2.isDigit && c2 == '-' && d1.isDigit && d2.isDigit then
      some (digitVal y1 * 1000 + digitVal y2 * 100 + digitVal y3 * 10 + digitVal y4,
            digitVal m1 * 10 + digitVal m2,
            digitVal d1 * 10 + digitVal d2)
    else none
  | _ => none

/-- `DATE_RE.match(value)` of `app/main.py`. -/
def matchesDateRe (s : String) : Bool := (dateChars s).isSome

/-- Gregorian leap-year rule, as used by Python's `datetime`. -/
def isLeapYear (y : Nat) : Bool := y % 4 == 0 && (y % 100 != 0 || y % 400 == 0)

/-- Number of days in a month, as used by Python's `datetime`. -/
def daysInMonth (y m : Nat) : Nat :=
  if m == 2 then (if isLeapYear y then 29 else 28)
  else if m == 4 || m == 6 || m == 9 || m == 11 then 30
  else 31

/-- Python `datetime.date.fromisoformat` on a `YYYY-MM-DD`-shaped string:
`none` models the `ValueError` Python raises when the string is not of
that shape or when the year/month/day are out of range. -/
def fromisoformat (s : String) : Option PyDate :=
  match dateChars s with
  | some (y, m, d) =>
    if 1 ≤ y ∧ y ≤ 9999 ∧ 1 ≤ m ∧ m ≤ 12 ∧ 1 ≤ d ∧ d ≤ daysInMonth y m then
      some ⟨y, m, d⟩
    else none
  | none => none

/-- Left-pads the decimal representation of `n` with zeros to width `w`. -/
def padNum (w n : Nat) : String :=
  let s := toString n
  String.mk (List.replicate (w - s.length) '0') ++ s

/-- Python `date.isoformat()`: the `YYYY-MM-DD` rendering of a date. -/
def isoformat (d : PyDate) : String :=
  padNum 4 d.year ++ "-" ++ padNum 2 d.month ++ "-" ++ padNum 2 d.day

/-- The `CalendarEntry` row of `app/models.py` (minus the surrogate `id`). -/
structure CalendarEntry where
  station : String
  date : PyDate
  status : String
  time_label : Option String
  is_public_holiday : Bool
  holiday_name : Option String
deriving DecidableEq

/-- `VALID_STATIONS` of `app/main.py`. -/
def VALID_STATIONS : List String := ["StationA", "StationB"]

/-- `normalize_station` of `app/main.py`. -/
def normalize_station (station : String) : String :=
  if station ∈ VALID_STATIONS then station else "StationA"

/-- The `WHERE station == .. AND date == ..` row filter shared by all the
single-row queries of `app/main.py`. -/
def keyMatch (st : String) (dobj : PyDate) (e : CalendarEntry) : Bool :=
  e.station == st && decide (e.date = dobj)

/-- Mutating the first row a `select ... .first()` returned: the first
element satisfying `p` is replaced by its image under `f`. -/
def updateFirst (p : CalendarEntry → Bool) (f : CalendarEntry → CalendarEntry) :
    List CalendarEntry → List CalendarEntry
  | [] => []
  | e :: es => if p e then f e :: es else e :: updateFirst p f es

/-- The `{"success": .., "message": ..}` JSON bodies of `app/main.py`. -/
structure Response where
  success : Bool
  message : String
deriving DecidableEq

/-- Outcome of `_date_or_400`: `badFormat` models the raised
`HTTPException(400)` (which the endpoints catch), `rangeError` models the
`ValueError` that `date.fromisoformat` raises on a regex-valid but
out-of-range date (which nothing catches). -/
inductive DateResult where
  | ok (d : PyDate)
  | badFormat
  | rangeError
deriving DecidableEq

/-- `_date_or_400` of `app/main.py`. -/
def _date_or_400 (value : String) : DateResult :=
  if matchesDateRe value then
    match fromisoformat value with
    | some d => .ok d
    | none => .rangeError
  else .badFormat

/-- An exception escaping an endpoint uncaught (a server fault / HTTP 500):
the `ValueError` of `date.fromisoformat`, or the `TypeError` of
`DATE_RE.match(None)` when the body carries no date. -/
inductive PyFault where
  | valueError
  | typeError
deriving DecidableEq

/-- `add_calendar_entry` (`POST /calendar`) of `app/main.py`.  The body
fields `date`, `status`, `time` are `Option` (absent = `None`).  Returns
the new store and the response, or the uncaught exception. -/
def add_calendar_entry (store : List CalendarEntry) (stationQ : String)
    (dateB statusB timeB : Option String) :
    Except PyFault (List CalendarEntry × Response) :=
  let station := normalize_station stationQ
  let time := pyStrip (timeB.getD "")
  match statusB with
  | none => .ok (store, ⟨false, "Invalid status"⟩)
  | some status =>
    if status = "Working" ∨ status = "Holiday" then
      match dateB with
      | none => .error .typeError
      | some d =>
        match _date_or_400 d with
        | .badFormat => .ok (store, ⟨false, "Invalid date format (expected YYYY-MM-DD)"⟩)
        | .rangeError => .error .valueError
        | .ok date_obj =>
          let label := if time ≠ "" then time
                       else if status = "Holiday" then "RD" else "0 hours"
          let msg := "[" ++ station ++ "] Added " ++ status ++ " for " ++ d
          match store.find? (keyMatch station date_obj) with
          | none =>
            .ok (store ++ [⟨station, date_obj, status, some label, false, none⟩],
                 ⟨true, msg⟩)
          | some _ =>
            .ok (updateFirst (keyMatch station date_obj)
                  (fun e => { e with status := status, time_label := some label }) store,
                 ⟨true, msg⟩)
    else .ok (store, ⟨false, "Invalid status"⟩)

/-- The four assignments shared by the public-holiday writes of
`app/main.py` (`add_public_holiday` and the auto-import loop). -/
def holidayUpdate (name : String) (e : CalendarEntry) : CalendarEntry :=
  { e with status := "Holiday", time_label := some "RD",
           is_public_holiday := true, holiday_name := some name }

/-- `add_public_holiday` (`POST /calendar/public`) of `app/main.py`. -/
def add_public_holiday (store : List CalendarEntry) (stationQ : String)
    (dateB nameB : Option String) :
    Except PyFault (List CalendarEntry × Response) :=
  let station := normalize_station stationQ
  let d := pyStrip (dateB.getD "")
  let name := pyStrip (nameB.getD "")
  if d = "" ∨ name = "" then .ok (store, ⟨false, "Missing date or name"⟩)
  else
    match _date_or_400 d with
    | .badFormat => .ok (store, ⟨false, "Invalid date format (expected YYYY-MM-DD)"⟩)
    | .rangeError => .error .valueError
    | .ok date_obj =>
      let msg := "[" ++ station ++ "] Added public holiday " ++ name ++ " on " ++ d
      match store.find? (keyMatch station date_obj) with
      | none =>
        .ok (store ++ [⟨station, date_obj, "Holiday", some "RD", true, some name⟩],
             ⟨true, msg⟩)
      | some _ =>
        .ok (updateFirst (keyMatch station date_obj) (holidayUpdate name) store,
             ⟨true, msg⟩)

/-- `remove_calendar_date` (`DELETE /calendar/{date}`) of `app/main.py`. -/
def remove_calendar_date (store : List CalendarEntry) (date stationQ : String) :
    Except PyFault (List CalendarEntry × Response) :=
  let station := normalize_station stationQ
  match _date_or_400 date with
  | .badFormat => .ok (store, ⟨false, "Invalid date format (expected YYYY-MM-DD)"⟩)
  | .rangeError => .error .valueError
  | .ok date_obj =>
    .ok (store.filter (fun e => !(keyMatch station date_obj e)),
         ⟨true, "[" ++ station ++ "] Deleted " ++ date⟩)

/-- `remove_public_holiday` (`DELETE /calendar/public/{date}`) of
`app/main.py`; same deletion as `remove_calendar_date`. -/
def remove_public_holiday (store : List CalendarEntry) (date stationQ : String) :
    Except PyFault (List CalendarEntry × Response) :=
  let station := normalize_station stationQ
  match _date_or_400 date with
  | .badFormat => .ok (store, ⟨false, "Invalid date format (expected YYYY-MM-DD)"⟩)
  | .rangeError => .error .valueError
  | .ok date_obj =>
    .ok (store.filter (fun e => !(keyMatch station date_obj e)),
         ⟨true, "[" ++ station ++ "] Removed public holiday for " ++ date⟩)

/-- Result of `reset_station`: the store after the request together with
the response, where `.error ()` is the raised `HTTPException(403)`
(Forbidden), raised before any row is touched. -/
structure ResetResult where
  store : List CalendarEntry
  response : Except Unit Response

/-- `reset_station` (`POST /admin/reset`) of `app/main.py`.  `expected` is
`os.environ.get("RENDER_RESET_SECRET")` (`none` = variable unset). -/
def reset_station (expected : Option String) (stationQ secret : String)
    (store : List CalendarEntry) : ResetResult :=
  match expected with
  | none => ⟨store, .error ()⟩
  | some e =>
    if e = "" ∨ secret ≠ e then ⟨store, .error ()⟩
    else
      let station := normalize_station stationQ
      ⟨store.filter (fun x => x.station != station),
       .ok ⟨true, "[" ++ station ++ "] wiped successfully."⟩⟩

/-- One record of the external holiday provider's response
(`{date, localName, counties}` with `counties` possibly `null`). -/
structure HolidayRecord where
  date : String
  localName : String
  counties : Option (List String)
deriving DecidableEq

/-- Whether the first list of characters begins the second. -/
def charsBegin : List Char → List Char → Bool
  | [], _ => true
  | _ :: _, [] => false
  | a :: as, b :: bs => a == b && charsBegin as bs

/-- Whether the first list of characters occurs inside the second. -/
def charsInside (needle : List Char) : List Char → Bool
  | [] => needle.isEmpty
  | c :: rest => charsBegin needle (c :: rest) || charsInside needle rest

/-- Python `"QLD" in s`: substring containment of `"QLD"`. -/
def containsQLD (s : String) : Bool := charsInside ['Q', 'L', 'D'] s.toList

/-- The county filter of `fetch_qld_public_holidays`:
`("QLD" in "".join(counties)) or not counties` after
`counties = item.get("counties") or []`. -/
def qldFilter (item : HolidayRecord) : Bool :=
  let counties := item.counties.getD []
  containsQLD (String.join counties) || counties.isEmpty

/-- The `{"success": .., "message"/"error": ..}` body returned by
`fetch_qld_public_holidays`. -/
structure FetchResponse where
  success : Bool
  text : String
deriving DecidableEq

/-- The per-record loop of `fetch_qld_public_holidays`, accumulating the
session's staged rows and the `added` counter.  `.error ()` is the
`ValueError` of `date.fromisoformat` on a malformed provider date; it
reaches the surrounding handler before the single final `commit`, so the
store is left untouched in that case. -/
def fetchLoop (station : String) :
    List HolidayRecord → List CalendarEntry → Nat →
    Except Unit (List CalendarEntry × Nat)
  | [], store, added => .ok (store, added)
  | item :: rest, store, added =>
    if qldFilter item then
      match fromisoformat item.date with
      | none => .error ()
      | some date_obj =>
        match store.find? (keyMatch station date_obj) with
        | none =>
          fetchLoop station rest
            (store ++ [⟨station, date_obj, "Holiday", some "RD", true, some item.localName⟩])
            (added + 1)
        | some _ =>
          fetchLoop station rest
            (updateFirst (keyMatch station date_obj) (holidayUpdate item.localName) store)
            added
    else fetchLoop station rest store added

/-- `fetch_qld_public_holidays` (`POST /calendar/public/auto`) of
`app/main.py`, given the provider's already-fetched record list.  The
`except Exception` branch returns the error text (abstracted here to a
fixed string) with the store unchanged. -/
def fetch_qld_public_holidays (store : List CalendarEntry) (stationQ : String)
    (year : Nat) (data : List HolidayRecord) :
    List CalendarEntry × FetchResponse :=
  let station := normalize_station stationQ
  match fetchLoop station data store 0 with
  | .ok (store2, added) =>
    (store2, ⟨true, "[" ++ station ++ "] " ++ toString added ++
                    " holidays loaded for " ++ toString year ++ "."⟩)
  | .error () => (store, ⟨false, "ValueError"⟩)

/-- The full-overwrite public-holiday upsert at one (station, date): the
store effect shared by `add_public_holiday` and by one merged record of
the auto-import loop — create the row if absent, else force
status="Holiday", time_label="RD", is_public_holiday=true and
holiday_name=name on the existing row. -/
def mergeHoliday (station : String) (dobj : PyDate) (name : String)
    (store : List CalendarEntry) : List CalendarEntry :=
  match store.find? (keyMatch station dobj) with
  | none => store ++ [⟨station, dobj, "Holiday", some "RD", true, some name⟩]
  | some _ => updateFirst (keyMatch station dobj) (holidayUpdate name) store

/-- One filter-passing provider record's store effect: parse its date and
apply the holiday merge.  (An unparsable date raises in the code and the
run fails; the fall-through branch here never arises in a successful
run.) -/
def mergeStep (station : String) (item : HolidayRecord)
    (store : List CalendarEntry) : List CalendarEntry :=
  match fromisoformat item.date with
  | some dobj => mergeHoliday station dobj item.localName store
  | none => store

/-- The JSON body returned by `get_calendar_data`: three date-keyed
mappings (modelled as insertion-ordered association lists, matching a
Python dict built by repeated assignment). -/
structure CalendarView where
  station : String
  calendar_data : List (String × String)
  calendar_times : List (String × String)
  public_holidays : List (String × String)

/-- Python `dict[k] = v`: overwrite in place, or append a new key. -/
def setKey (k v : String) : List (String × String) → List (String × String)
  | [] => [(k, v)]
  | (k0, v0) :: rest => if k0 == k then (k0, v) :: rest else (k0, v0) :: setKey k v rest

/-- Python `dict.get(k)`: the value at the first occurrence of key `k`. -/
def lookupA (k : String) (l : List (String × String)) : Option String :=
  (l.find? (fun p => p.1 == k)).map (fun p => p.2)

/-- The `if r.time_label: calendar_times[key] = r.time_label` line of
`get_calendar_data` (a falsy — absent or empty — label writes nothing). -/
def timesUpdate (key : String) (tl : Option String) (m : List (String × String)) :
    List (String × String) :=
  match tl with
  | some t => if t == "" then m else setKey key t m
  | none => m

/-- The `if r.is_public_holiday and r.holiday_name: public_holidays[key] = ...`
line of `get_calendar_data`. -/
def phUpdate (key : String) (isph : Bool) (hn : Option String)
    (m : List (String × String)) : List (String × String) :=
  match hn with
  | some n => if isph && !(n == "") then setKey key n m else m
  | none => m

/-- One iteration of the row loop of `get_calendar_data`. -/
def viewStep (acc : CalendarView) (r : CalendarEntry) : CalendarView :=
  let key := isoformat r.date
  ⟨acc.station,
   setKey key r.status acc.calendar_data,
   timesUpdate key r.time_label acc.calendar_times,
   phUpdate key r.is_public_holiday r.holiday_name acc.public_holidays⟩

/-- `get_calendar_data` (`GET /calendar`) of `app/main.py`. -/
def get_calendar_data (store : List CalendarEntry) (stationQ : String) :
    CalendarView :=
  let station := normalize_station stationQ
  (store.filter (fun e => e.station == station)).foldl viewStep ⟨station, [], [], []⟩

/-- One station's buckets in the legacy JSON snapshot. -/
structure StationBuckets where
  calendar_data : List (String × String)
  calendar_times : List (String × String)
  public_holidays : List (String × String)
deriving DecidableEq

/-- The legacy JSON snapshot (`calendar_data.json`): either a top-level
`stations` mapping or the flat single-station shape. -/
structure LegacySnapshot where
  stations : Option (List (String × StationBuckets))
  calendar_data : List (String × String)
  calendar_times : List (String × String)
  public_holidays : List (String × String)
deriving DecidableEq

/-- The `stations_obj` computed by `on_startup`: Python's
`if not stations_obj` treats both a missing and an empty `stations`
mapping as absent and falls back to the flat shape under `StationA`. -/
def effectiveStations (data : LegacySnapshot) : List (String × StationBuckets) :=
  match data.stations with
  | some l =>
    if l.isEmpty then
      [("StationA", ⟨data.calendar_data, data.calendar_times, data.public_holidays⟩)]
    else l
  | none => [("StationA", ⟨data.calendar_data, data.calendar_times, data.public_holidays⟩)]

/-- The inner `for d, status in cal.items()` loop of `on_startup` over one
station's buckets.  A date key failing `DATE_RE` is skipped; a regex-valid
but out-of-range date raises `ValueError` (`.error ()`), which aborts the
whole import before its single `commit`. -/
def importStationCal (station : String) (b : StationBuckets) :
    List (String × String) → Except Unit (List CalendarEntry)
  | [] => .ok []
  | (d, status) :: rest =>
    if matchesDateRe d then
      match fromisoformat d with
      | none => .error ()
      | some date_obj =>
        let is_ph := (lookupA d b.public_holidays).isSome
        let label := match lookupA d b.calendar_times with
          | some t => if t == "" then (if status == "Holiday" then "RD" else "0 hours") else t
          | none => if status == "Holiday" then "RD" else "0 hours"
        match importStationCal station b rest with
        | .ok es =>
          .ok (⟨normalize_station station, date_obj, status, some label, is_ph,
                if is_ph then lookupA d b.public_holidays else none⟩ :: es)
        | .error () => .error ()
    else importStationCal station b rest

/-- The outer `for station, buckets in stations_obj.items()` loop of
`on_startup`. -/
def importStations : List (String × StationBuckets) → Except Unit (List CalendarEntry)
  | [] => .ok []
  | (st, b) :: rest =>
    match importStationCal st b b.calendar_data with
    | .error () => .error ()
    | .ok es =>
      match importStations rest with
      | .ok es2 => .ok (es ++ es2)
      | .error () => .error ()

/-- The entry list the legacy import of `on_startup` commits for a
snapshot, or `.error ()` when an exception aborts it (nothing committed:
the only `commit` is after the whole loop). -/
def importSnapshot (data : LegacySnapshot) : Except Unit (List CalendarEntry) :=
  importStations (effectiveStations data)

/-- `on_startup` of `app/main.py`: a no-op unless the table is empty and
the legacy file exists (`snapshot = none` models a missing file). -/
def on_startup (store : List CalendarEntry) (snapshot : Option LegacySnapshot) :
    List CalendarEntry :=
  if store.isEmpty then
    match snapshot with
    | none => store
    | some data =>
      match importSnapshot data with
      | .ok es => es
      | .error () => store
  else store

/-- One steady-state request against the store, for stating invariants
over arbitrary operation sequences.  A request that raises (uncaught
fault or 403) leaves the store unchanged. -/
inductive StoreOp where
  | upsertEntry (stationQ : String) (dateB statusB timeB : Option String)
  | upsertHoliday (stationQ : String) (dateB nameB : Option String)
  | importHolidays (stationQ : String) (year : Nat) (data : List HolidayRecord)
  | deleteEntry (date stationQ : String)
  | deleteHoliday (date stationQ : String)
  | adminReset (expected : Option String) (stationQ secret : String)

/-- The store after serving one request. -/
def applyOp (store : List CalendarEntry) : StoreOp → List CalendarEntry
  | .upsertEntry stQ d s t =>
    match add_calendar_entry store stQ d s t with
    | .ok (s2, _) => s2
    | .error _ => store
  | .upsertHoliday stQ d n =>
    match add_public_holiday store stQ d n with
    | .ok (s2, _) => s2
    | .error _ => store
  | .importHolidays stQ y data => (fetch_qld_public_holidays store stQ y data).1
  | .deleteEntry d stQ =>
    match remove_calendar_date store d stQ with
    | .ok (s2, _) => s2
    | .error _ => store
  | .deleteHoliday d stQ =>
    match remove_public_holiday store d stQ with
    | .ok (s2, _) => s2
    | .error _ => store
  | .adminReset exp stQ sec => (reset_station exp stQ sec store).store

/-- The spec's §3 invariant: at most one entry per (station, date). -/
def UniqKeys (store : List CalendarEntry) : Prop :=
  ∀ st dobj, store.countP (keyMatch st dobj) ≤ 1

/-- The fields of a row that `add_calendar_entry` never assigns on the
update path: everything except `status` and `time_label`. -/
def frameFields (e : CalendarEntry) : String × PyDate × Bool × Option String :=
  (e.station, e.date, e.is_public_holiday, e.holiday_name)

/-! ## List lemmas about the store operations -/

theorem countP_congr_mem {α : Type} (p q : α → Bool) :
    ∀ l : List α, (∀ x ∈ l, p x = q x) → l.countP p = l.countP q
  | [], _ => rfl
  | a :: as, h => by
    have ha := h a (List.mem_cons_self a as)
    have hrest := countP_congr_mem p q as (fun x hx => h x (List.mem_cons_of_mem a hx))
    simp [List.countP_cons, ha, hrest]

theorem find?_congr_mem {α : Type} (p q : α → Bool) :
    ∀ l : List α, (∀ x ∈ l, p x = q x) → l.find? p = l.find? q
  | [], _ => rfl
  | a :: as, h => by
    have ha := h a (List.mem_cons_self a as)
    have hrest := find?_congr_mem p q as (fun x hx => h x (List.mem_cons_of_mem a hx))
    by_cases hp : p a
    · simp [List.find?_cons, hp, ha ▸ hp]
    · have hq : ¬ q a = true := by rw [← ha]; exact hp
      simp [List.find?_cons, hp, hq, hrest]

theorem find?_filter_comm {α : Type} (p q : α → Bool) :
    ∀ l : List α, (l.filter q).find? p = l.find? (fun a => q a && p a)
  | [] => rfl
  | a :: as => by
    by_cases hq : q a
    · by_cases hp : p a
      · simp [List.filter_cons, hq, List.find?_cons, hp]
      · simp [List.filter_cons, hq, List.find?_cons, hp, find?_filter_comm p q as]
    · simp [List.filter_cons, hq, List.find?_cons, find?_filter_comm p q as]

theorem countP_updateFirst (p q : CalendarEntry → Bool) (f : CalendarEntry → CalendarEntry)
    (hf : ∀ e, p (f e) = p e) :
    ∀ l : List CalendarEntry, (updateFirst q f l).countP p = l.countP p
  | [] => rfl
  | e :: es => by
    by_cases hq : q e
    · simp [updateFirst, hq, List.countP_cons, hf]
    · simp [updateFirst, hq, List.countP_cons, countP_updateFirst p q f hf es]

theorem find?_updateFirst (p q : CalendarEntry → Bool) (f : CalendarEntry → CalendarEntry)
    (hpf : ∀ e, p (f e) = p e) :
    ∀ l : List CalendarEntry, ∀ e, (∀ x ∈ l, p x = q x) → l.find? q = some e →
      (updateFirst q f l).find? p = some (f e)
  | [], e, _, h => by simp at h
  | x :: xs, e, hm, h => by
    have hx0 : p x = q x := hm x (List.mem_cons_self x xs)
    by_cases hq : q x
    · have hx : x = e := by simpa [List.find?_cons, hq] using h
      subst hx
      have hp : p (f x) = true := by rw [hpf, hx0]; exact hq
      simp [updateFirst, hq, List.find?_cons, hp]
    · have hp : ¬ p x = true := by rw [hx0]; exact hq
      have h' : xs.find? q = some e := by simpa [List.find?_cons, hq] using h
      simp [updateFirst, hq, List.find?_cons, hp,
            find?_updateFirst p q f hpf xs e
              (fun y hy => hm y (List.mem_cons_of_mem x hy)) h']

theorem find?_append_single (p : CalendarEntry → Bool) (l : List CalendarEntry)
    (a : CalendarEntry) (hl : l.find? p = none) (ha : p a = true) :
    (l ++ [a]).find? p = some a := by
  rw [List.find?_append, hl]
  simp [List.find?_cons, ha]

theorem length_updateFirst (q : CalendarEntry → Bool) (f : CalendarEntry → CalendarEntry) :
    ∀ l : List CalendarEntry, (updateFirst q f l).length = l.length
  | [] => rfl
  | e :: es => by
    by_cases hq : q e
    · simp [updateFirst, hq]
    · simp [updateFirst, hq, length_updateFirst q f es]

theorem map_updateFirst {γ : Type} (g : CalendarEntry → γ)
    (q : CalendarEntry → Bool) (f : CalendarEntry → CalendarEntry)
    (hf : ∀ e, g (f e) = g e) :
    ∀ l : List CalendarEntry, (updateFirst q f l).map g = l.map g
  | [] => rfl
  | e :: es => by
    by_cases hq : q e
    · simp [updateFirst, hq, hf]
    · simp [updateFirst, hq, map_updateFirst g q f hf es]

/-- A key predicate evaluates the same on an entry after either in-place
update of `app/main.py` (they only touch status / time / holiday fields). -/
theorem keyMatch_entryUpdate (st : String) (dobj : PyDate) (status label : String)
    (e : CalendarEntry) :
    keyMatch st dobj { e with status := status, time_label := some label } =
      keyMatch st dobj e := rfl

theorem keyMatch_holidayUpdate (st : String) (dobj : PyDate) (name : String)
    (e : CalendarEntry) :
    keyMatch st dobj (holidayUpdate name e) = keyMatch st dobj e := rfl

theorem frameFields_entryUpdate (status label : String) (e : CalendarEntry) :
    frameFields { e with status := status, time_label := some label } =
      frameFields e := rfl

/-- An entry satisfying `keyMatch st dobj` has exactly that station and date. -/
theorem keyMatch_fields {st : String} {dobj : PyDate} {e : CalendarEntry}
    (h : keyMatch st dobj e = true) : e.station = st ∧ e.date = dobj := by
  have := h
  simp [keyMatch] at this
  exact this

/-! ## Preservation of the one-entry-per-key invariant -/

theorem uniqKeys_append (st : String) (dobj : PyDate) (mk : CalendarEntry)
    (store : List CalendarEntry)
    (hmk : mk.station = st) (hmd : mk.date = dobj)
    (hnone : store.find? (keyMatch st dobj) = none)
    (h : UniqKeys store) : UniqKeys (store ++ [mk]) := by
  intro st' d'
  rw [List.countP_append]
  by_cases hp : keyMatch st' d' mk
  · obtain ⟨hs, hd⟩ := keyMatch_fields hp
    have hst : st' = st := by rw [← hs, hmk]
    have hdd : d' = dobj := by rw [← hd, hmd]
    subst hst; subst hdd
    have hzero : store.countP (keyMatch st' d') = 0 :=
      List.countP_eq_zero.mpr (List.find?_eq_none.mp hnone)
    simp [hzero, List.countP_cons, hp]
  · have : List.countP (keyMatch st' d') [mk] = 0 := by
      simp [List.countP_cons, hp]
    rw [this]
    simpa using h st' d'

theorem uniqKeys_updateFirst (q : CalendarEntry → Bool)
    (f : CalendarEntry → CalendarEntry)
    (hf : ∀ st' d' e, keyMatch st' d' (f e) = keyMatch st' d' e)
    (store : List CalendarEntry) (h : UniqKeys store) :
    UniqKeys (updateFirst q f store) := by
  intro st' d'
  rw [countP_updateFirst (keyMatch st' d') q f (hf st' d')]
  exact h st' d'

theorem uniqKeys_filter (p : CalendarEntry → Bool) (store : List CalendarEntry)
    (h : UniqKeys store) : UniqKeys (store.filter p) := by
  intro st' d'
  exact le_trans (List.Sublist.countP_le _ (List.filter_sublist store)) (h st' d')

theorem fetchLoop_uniqKeys (st : String) :
    ∀ (data : List HolidayRecord) (store : List CalendarEntry) (added : Nat)
      (s2 : List CalendarEntry) (a2 : Nat),
      UniqKeys store → fetchLoop st data store added = .ok (s2, a2) → UniqKeys s2
  | [], store, added, s2, a2, h, hrun => by
    simp [fetchLoop] at hrun
    rw [← hrun.1]; exact h
  | item :: rest, store, added, s2, a2, h, hrun => by
    rw [fetchLoop] at hrun
    split at hrun
    · split at hrun
      · exact absurd hrun (by simp)
      · rename_i dobj hiso
        split at hrun
        · rename_i hfind
          exact fetchLoop_uniqKeys st rest _ _ s2 a2
            (uniqKeys_append st dobj _ store rfl rfl hfind h) hrun
        · exact fetchLoop_uniqKeys st rest _ _ s2 a2
            (uniqKeys_updateFirst _ _ (fun st' d' e' => keyMatch_holidayUpdate st' d' _ e') store h)
            hrun
    · exact fetchLoop_uniqKeys st rest store added s2 a2 h hrun

/-- The `added` counter of the auto-import loop counts exactly the rows
the loop appended to the store: updates of existing rows do not move it. -/
theorem fetchLoop_added (st : String) :
    ∀ (data : List HolidayRecord) (store : List CalendarEntry) (added : Nat)
      (s2 : List CalendarEntry) (a2 : Nat),
      fetchLoop st data store added = .ok (s2, a2) →
      a2 + store.length = added + s2.length
  | [], store, added, s2, a2, hrun => by
    simp only [fetchLoop, Except.ok.injEq, Prod.mk.injEq] at hrun
    obtain ⟨h1, h2⟩ := hrun
    subst h1; subst h2
    omega
  | item :: rest, store, added, s2, a2, hrun => by
    rw [fetchLoop] at hrun
    split at hrun
    · split at hrun
      · exact absurd hrun (by simp)
      · rename_i dobj hiso
        split at hrun
        · have := fetchLoop_added st rest _ _ s2 a2 hrun
          simp only [List.length_append, List.length_cons, List.length_nil] at this
          omega
        · have := fetchLoop_added st rest _ _ s2 a2 hrun
          rw [length_updateFirst] at this
          omega
    · exact fetchLoop_added st rest store added s2 a2 hrun

/-- A successful auto-import run computes exactly the left fold of the
per-record holiday merges gated by the county condition, over fresh and
existing rows alike: a record passing the condition is fully overwritten
into the store at its date, a record failing it leaves the store
untouched. -/
theorem fetchLoop_foldl_merge (st : String) :
    ∀ (data : List HolidayRecord) (store : List CalendarEntry) (added : Nat)
      (s2 : List CalendarEntry) (a2 : Nat),
      fetchLoop st data store added = .ok (s2, a2) →
      s2 = data.foldl (fun acc item =>
        if (item.counties.getD []) = [] ∨
           containsQLD (String.join (item.counties.getD [])) = true
        then mergeStep st item acc else acc) store
  | [], store, added, s2, a2, hrun => by
    simp only [fetchLoop, Except.ok.injEq, Prod.mk.injEq] at hrun
    rw [List.foldl_nil, ← hrun.1]
  | item :: rest, store, added, s2, a2, hrun => by
    rw [fetchLoop] at hrun
    simp only [List.foldl_cons]
    by_cases hq : qldFilter item = true
    · have hcond : (item.counties.getD []) = [] ∨
          containsQLD (String.join (item.counties.getD [])) = true := by
        by_cases hce : (item.counties.getD []) = []
        · exact Or.inl hce
        · refine Or.inr ?_
          cases hb : containsQLD (String.join (item.counties.getD [])) with
          | true => rfl
          | false =>
            exfalso
            have hie : (item.counties.getD []).isEmpty = false := by
              cases hl : item.counties.getD [] with
              | nil => exact absurd hl hce
              | cons a as => rfl
            have hqq := hq
            simp only [qldFilter] at hqq
            rw [hb, hie] at hqq
            simp at hqq
      rw [if_pos hcond]
      rw [if_pos hq] at hrun
      cases hiso : fromisoformat item.date with
      | none =>
        simp only [hiso] at hrun
        exact absurd hrun (by simp)
      | some dobj =>
        simp only [hiso] at hrun
        cases hfind : store.find? (keyMatch st dobj) with
        | none =>
          simp only [hfind] at hrun
          have ih := fetchLoop_foldl_merge st rest _ _ s2 a2 hrun
          rw [ih]
          have hms : mergeStep st item store =
              store ++ [⟨st, dobj, "Holiday", some "RD", true, some item.localName⟩] := by
            simp only [mergeStep, hiso, mergeHoliday, hfind]
          rw [hms]
        | some e0 =>
          simp only [hfind] at hrun
          have ih := fetchLoop_foldl_merge st rest _ _ s2 a2 hrun
          rw [ih]
          have hms : mergeStep st item store =
              updateFirst (keyMatch st dobj) (holidayUpdate item.localName) store := by
            simp only [mergeStep, hiso, mergeHoliday, hfind]
          rw [hms]
    · have hc1 : containsQLD (String.join (item.counties.getD [])) = false := by
        cases hb : containsQLD (String.join (item.counties.getD [])) with
        | false => rfl
        | true => exact absurd (by simp [qldFilter, hb]) hq
      have hc2 : (item.counties.getD []) ≠ [] := by
        intro hl
        exact hq (by simp [qldFilter, hl])
      have hcond : ¬ ((item.counties.getD []) = [] ∨
          containsQLD (String.join (item.counties.getD [])) = true) := by
        rintro (h | h)
        · exact hc2 h
        · rw [hc1] at h
          exact Bool.false_ne_true h
      rw [if_neg hcond]
      rw [if_neg hq] at hrun
      exact fetchLoop_foldl_merge st rest store added s2 a2 hrun

/-- The store effect of a successful `add_public_holiday` is exactly the
`mergeHoliday` overwrite the auto-import reference fold uses. -/
theorem add_public_holiday_effect (store : List CalendarEntry) (stQ : String)
    (dateB nameB : Option String) (dobj : PyDate) (s2 : List CalendarEntry)
    (r : Response)
    (hd : _date_or_400 (pyStrip (dateB.getD "")) = .ok dobj)
    (hrun : add_public_holiday store stQ dateB nameB = .ok (s2, r))
    (hok : r.success = true) :
    s2 = mergeHoliday (normalize_station stQ) dobj (pyStrip (nameB.getD "")) store := by
  simp only [add_public_holiday, hd] at hrun
  split at hrun
  · simp only [Except.ok.injEq, Prod.mk.injEq] at hrun
    obtain ⟨h1, h2⟩ := hrun
    rw [← h2] at hok
    exact absurd hok (by simp)
  · cases hfind : store.find? (keyMatch (normalize_station stQ) dobj) with
    | none =>
      simp only [hfind, Except.ok.injEq, Prod.mk.injEq] at hrun
      obtain ⟨h1, -⟩ := hrun
      simp only [mergeHoliday, hfind]
      exact h1.symm
    | some e0 =>
      simp only [hfind, Except.ok.injEq, Prod.mk.injEq] at hrun
      obtain ⟨h1, -⟩ := hrun
      simp only [mergeHoliday, hfind]
      exact h1.symm

theorem add_calendar_entry_uniqKeys (store : List CalendarEntry) (stQ : String)
    (d s t : Option String) (s2 : List CalendarEntry) (r : Response)
    (h : UniqKeys store) (hrun : add_calendar_entry store stQ d s t = .ok (s2, r)) :
    UniqKeys s2 := by
  simp only [add_calendar_entry] at hrun
  split at hrun
  · simp only [Except.ok.injEq, Prod.mk.injEq] at hrun
    obtain ⟨h1, -⟩ := hrun; subst h1; exact h
  · split at hrun
    · split at hrun
      · exact absurd hrun (by simp)
      · split at hrun
        · simp only [Except.ok.injEq, Prod.mk.injEq] at hrun
          obtain ⟨h1, -⟩ := hrun; subst h1; exact h
        · exact absurd hrun (by simp)
        · rename_i dobj hdate
          split at hrun
          · rename_i hfind
            simp only [Except.ok.injEq, Prod.mk.injEq] at hrun
            obtain ⟨h1, -⟩ := hrun; subst h1
            exact uniqKeys_append _ _ _ store rfl rfl hfind h
          · simp only [Except.ok.injEq, Prod.mk.injEq] at hrun
            obtain ⟨h1, -⟩ := hrun; subst h1
            exact uniqKeys_updateFirst _ _
              (fun st' d' e' => keyMatch_entryUpdate st' d' _ _ e') store h
    · simp only [Except.ok.injEq, Prod.mk.injEq] at hrun
      obtain ⟨h1, -⟩ := hrun; subst h1; exact h

theorem add_public_holiday_uniqKeys (store : List CalendarEntry) (stQ : String)
    (d n : Option String) (s2 : List CalendarEntry) (r : Response)
    (h : UniqKeys store) (hrun : add_public_holiday store stQ d n = .ok (s2, r)) :
    UniqKeys s2 := by
  simp only [add_public_holiday] at hrun
  split at hrun
  · simp only [Except.ok.injEq, Prod.mk.injEq] at hrun
    obtain ⟨h1, -⟩ := hrun; subst h1; exact h
  · split at hrun
    · simp only [Except.ok.injEq, Prod.mk.injEq] at hrun
      obtain ⟨h1, -⟩ := hrun; subst h1; exact h
    · exact absurd hrun (by simp)
    · rename_i dobj hdate
      split at hrun
      · rename_i hfind
        simp only [Except.ok.injEq, Prod.mk.injEq] at hrun
        obtain ⟨h1, -⟩ := hrun; subst h1
        exact uniqKeys_append _ _ _ store rfl rfl hfind h
      · simp only [Except.ok.injEq, Prod.mk.injEq] at hrun
        obtain ⟨h1, -⟩ := hrun; subst h1
        exact uniqKeys_updateFirst _ _
          (fun st' d' e' => keyMatch_holidayUpdate st' d' _ e') store h

theorem remove_calendar_date_uniqKeys (store : List CalendarEntry)
    (date stQ : String) (s2 : List CalendarEntry) (r : Response)
    (h : UniqKeys store) (hrun : remove_calendar_date store date stQ = .ok (s2, r)) :
    UniqKeys s2 := by
  simp only [remove_calendar_date] at hrun
  split at hrun
  · simp only [Except.ok.injEq, Prod.mk.injEq] at hrun
    obtain ⟨h1, -⟩ := hrun; subst h1; exact h
  · exact absurd hrun (by simp)
  · simp only [Except.ok.injEq, Prod.mk.injEq] at hrun
    obtain ⟨h1, -⟩ := hrun; subst h1
    exact uniqKeys_filter _ store h

theorem remove_public_holiday_uniqKeys (store : List CalendarEntry)
    (date stQ : String) (s2 : List CalendarEntry) (r : Response)
    (h : UniqKeys store) (hrun : remove_public_holiday store date stQ = .ok (s2, r)) :
    UniqKeys s2 := by
  simp only [remove_public_holiday] at hrun
  split at hrun
  · simp only [Except.ok.injEq, Prod.mk.injEq] at hrun
    obtain ⟨h1, -⟩ := hrun; subst h1; exact h
  · exact absurd hrun (by simp)
  · simp only [Except.ok.injEq, Prod.mk.injEq] at hrun
    obtain ⟨h1, -⟩ := hrun; subst h1
    exact uniqKeys_filter _ store h

theorem reset_station_uniqKeys (expected : Option String) (stQ secret : String)
    (store : List CalendarEntry) (h : UniqKeys store) :
    UniqKeys (reset_station expected stQ secret store).store := by
  simp only [reset_station]
  split
  · exact h
  · split
    · exact h
    · exact uniqKeys_filter _ store h

theorem applyOp_uniqKeys (store : List CalendarEntry) (op : StoreOp)
    (h : UniqKeys store) : UniqKeys (applyOp store op) := by
  cases op with
  | upsertEntry stQ d s t =>
    simp only [applyOp]
    split
    · rename_i s2 r hrun
      exact add_calendar_entry_uniqKeys store stQ d s t s2 r h hrun
    · exact h
  | upsertHoliday stQ d n =>
    simp only [applyOp]
    split
    · rename_i s2 r hrun
      exact add_public_holiday_uniqKeys store stQ d n s2 r h hrun
    · exact h
  | importHolidays stQ y data =>
    simp only [applyOp, fetch_qld_public_holidays]
    split
    · rename_i s2 a2 hrun
      exact fetchLoop_uniqKeys _ data store 0 s2 a2 h hrun
    · exact h
  | deleteEntry d stQ =>
    simp only [applyOp]
    split
    · rename_i s2 r hrun
      exact remove_calendar_date_uniqKeys store d stQ s2 r h hrun
    · exact h
  | deleteHoliday d stQ =>
    simp only [applyOp]
    split
    · rename_i s2 r hrun
      exact remove_public_holiday_uniqKeys store d stQ s2 r h hrun
    · exact h
  | adminReset exp stQ sec => exact reset_station_uniqKeys exp stQ sec store h

/-! ## Claim theorems -/

/-- C1: for every station and caller-supplied secret, `reset_station`
fails with Forbidden (the 403) and deletes no row whenever the
server-held secret is unconfigured (unset or empty) or the supplied
secret differs from it; in particular with no configured secret, every
input secret, the empty string included, is rejected. -/
theorem c1_reset_forbidden (expected : Option String) (stationQ secret : String)
    (store : List CalendarEntry)
    (h : expected = none ∨ expected = some "" ∨ ∃ e, expected = some e ∧ secret ≠ e) :
    reset_station expected stationQ secret store = ⟨store, .error ()⟩ := by
  rcases h with h | h | ⟨e, he, hs⟩
  · subst h; rfl
  · subst h; simp [reset_station]
  · subst he; simp [reset_station, hs]

/-- C1 witness: with no configured secret, the empty secret is rejected
and the station's rows survive. -/
theorem c1_reset_forbidden_witness :
    ((none : Option String) = none ∨ (none : Option String) = some "" ∨
      ∃ e, (none : Option String) = some e ∧ "" ≠ e) ∧
    reset_station none "StationA" ""
        [⟨"StationA", ⟨2025, 1, 1⟩, "Working", some "0 hours", false, none⟩] =
      ⟨[⟨"StationA", ⟨2025, 1, 1⟩, "Working", some "0 hours", false, none⟩], .error ()⟩ :=
  ⟨Or.inl rfl, c1_reset_forbidden none "StationA" "" _ (Or.inl rfl)⟩

/-- C2 (amended): every steady-state request — upserts, public-holiday
upserts, bulk imports, deletions and station resets — preserves the
at-most-one-entry-per-(station, date) invariant, over any operation
sequence.  (The legacy startup import, by contrast, can itself create
duplicates; see the counterexample.) -/
theorem c2_ops_preserve_uniqKeys (ops : List StoreOp) (store : List CalendarEntry)
    (h : UniqKeys store) : UniqKeys (ops.foldl applyOp store) := by
  induction ops generalizing store with
  | nil => simpa using h
  | cons op rest ih => exact ih (applyOp store op) (applyOp_uniqKeys store op h)

/-- C2 witness: a concrete three-request sequence on the empty store. -/
theorem c2_ops_preserve_uniqKeys_witness :
    UniqKeys [] ∧
    UniqKeys ([StoreOp.upsertEntry "StationA" (some "2025-01-01") (some "Working") none,
               StoreOp.upsertHoliday "StationA" (some "2025-01-01") (some "New Year"),
               StoreOp.deleteEntry "2025-01-01" "StationA"].foldl applyOp []) :=
  ⟨fun st dobj => by simp, c2_ops_preserve_uniqKeys _ [] (fun st dobj => by simp)⟩

/-- C2 counterexample: a legacy snapshot whose two unknown station keys
both normalize to `StationA` makes the startup import insert two rows
with the same (station, date) key, so the invariant does not hold at
every point of every sequence that starts with the legacy import. -/
theorem c2_startup_import_duplicates :
    ¬ UniqKeys (on_startup [] (some
      ⟨some [("Foo", ⟨[("2025-01-01", "Working")], [], []⟩),
             ("Bar", ⟨[("2025-01-01", "Working")], [], []⟩)], [], [], []⟩)) := by
  intro h
  have h2 := h "StationA" ⟨2025, 1, 1⟩
  have he : (on_startup [] (some
      ⟨some [("Foo", ⟨[("2025-01-01", "Working")], [], []⟩),
             ("Bar", ⟨[("2025-01-01", "Working")], [], []⟩)], [], [], []⟩)).countP
      (keyMatch "StationA" ⟨2025, 1, 1⟩) = 2 := rfl
  rw [he] at h2
  omega

/-- C3 (amended): `remove_calendar_date` removes the (station, date) row
if present, is a no-op when absent and never an error, and a second
delete of the same date is a no-op returning the very same response; but
the response always reports `success = true` with a "Deleted" message —
it does not report whether a row existed. -/
theorem c3_delete_idempotent_always_success (store store2 : List CalendarEntry)
    (dstr stationQ : String) (dobj : PyDate) (resp : Response)
    (hd : _date_or_400 dstr = .ok dobj)
    (hrun : remove_calendar_date store dstr stationQ = .ok (store2, resp)) :
    resp = ⟨true, "[" ++ normalize_station stationQ ++ "] Deleted " ++ dstr⟩ ∧
    store2 = store.filter (fun e => !(keyMatch (normalize_station stationQ) dobj e)) ∧
    remove_calendar_date store2 dstr stationQ = .ok (store2, resp) := by
  simp only [remove_calendar_date, hd] at hrun
  simp only [Except.ok.injEq, Prod.mk.injEq] at hrun
  obtain ⟨h1, h2⟩ := hrun
  subst h1; subst h2
  refine ⟨rfl, rfl, ?_⟩
  simp only [remove_calendar_date, hd, List.filter_filter, Except.ok.injEq, Prod.mk.injEq]
  constructor
  · apply List.filter_congr
    intro x _
    cases keyMatch (normalize_station stationQ) dobj x <;> rfl
  · trivial

/-- C3 witness: deleting an existing date, then deleting it again. -/
theorem c3_delete_idempotent_always_success_witness :
    _date_or_400 "2025-01-01" = .ok ⟨2025, 1, 1⟩ ∧
    remove_calendar_date
        [⟨"StationA", ⟨2025, 1, 1⟩, "Working", some "0 hours", false, none⟩]
        "2025-01-01" "StationA" = .ok ([], ⟨true, "[StationA] Deleted 2025-01-01"⟩) ∧
    (⟨true, "[StationA] Deleted 2025-01-01"⟩ : Response) =
      ⟨true, "[" ++ normalize_station "StationA" ++ "] Deleted " ++ "2025-01-01"⟩ ∧
    ([] : List CalendarEntry) =
      [⟨"StationA", ⟨2025, 1, 1⟩, "Working", some "0 hours", false, none⟩].filter
        (fun e => !(keyMatch (normalize_station "StationA") ⟨2025, 1, 1⟩ e)) ∧
    remove_calendar_date [] "2025-01-01" "StationA" =
      .ok ([], ⟨true, "[StationA] Deleted 2025-01-01"⟩) :=
  ⟨rfl, rfl,
   c3_delete_idempotent_always_success
     [⟨"StationA", ⟨2025, 1, 1⟩, "Working", some "0 hours", false, none⟩] [] "2025-01-01"
     "StationA" ⟨2025, 1, 1⟩ ⟨true, "[StationA] Deleted 2025-01-01"⟩ rfl rfl⟩

/-- C3 counterexample: the second of two consecutive deletes of the same
date — no row exists any more — still answers `success = true` with the
same "Deleted" message, not the claimed "not found" / `success:false`. -/
theorem c3_second_delete_reports_success :
    remove_calendar_date
        [⟨"StationA", ⟨2025, 1, 1⟩, "Working", some "0 hours", false, none⟩]
        "2025-01-01" "StationA" = .ok ([], ⟨true, "[StationA] Deleted 2025-01-01"⟩) ∧
    remove_calendar_date [] "2025-01-01" "StationA" =
      .ok ([], ⟨true, "[StationA] Deleted 2025-01-01"⟩) :=
  ⟨rfl, rfl⟩

/-- C5: the claim fails on the code — the date string "2025-13-01"
matches `DATE_RE`, so `_date_or_400` reaches `date.fromisoformat`, whose
`ValueError` is not an `HTTPException` and escapes the endpoint as an
unhandled server fault instead of a structured failure response. -/
theorem c5_regex_valid_date_is_server_fault :
    matchesDateRe "2025-13-01" = true ∧
    add_calendar_entry [] "StationA" (some "2025-13-01") (some "Working") none
      = .error .valueError :=
  ⟨rfl, rfl⟩

/-- C4 (amended): on a successful import run, the count in the response
message equals the number of NEW rows the run created (the growth of the
store), not the number of records that passed the county filter and were
merged: a record that overwrites an existing row is merged but not
counted. -/
theorem c4_import_count_is_new_rows (store : List CalendarEntry) (stQ : String)
    (year : Nat) (data : List HolidayRecord) (s2 : List CalendarEntry) (added : Nat)
    (hrun : fetchLoop (normalize_station stQ) data store 0 = .ok (s2, added)) :
    added + store.length = s2.length ∧
    fetch_qld_public_holidays store stQ year data =
      (s2, ⟨true, "[" ++ normalize_station stQ ++ "] " ++ toString added ++
                  " holidays loaded for " ++ toString year ++ "."⟩) := by
  constructor
  · have := fetchLoop_added (normalize_station stQ) data store 0 s2 added hrun
    omega
  · simp [fetch_qld_public_holidays, hrun]

/-- C4 witness: importing one national holiday into an empty store. -/
theorem c4_import_count_is_new_rows_witness :
    fetchLoop (normalize_station "StationA") [⟨"2025-12-25", "Christmas Day", none⟩] [] 0
      = .ok ([⟨"StationA", ⟨2025, 12, 25⟩, "Holiday", some "RD", true, some "Christmas Day"⟩], 1) ∧
    1 + ([] : List CalendarEntry).length =
      [(⟨"StationA", ⟨2025, 12, 25⟩, "Holiday", some "RD", true, some "Christmas Day"⟩ : CalendarEntry)].length ∧
    fetch_qld_public_holidays [] "StationA" 2025 [⟨"2025-12-25", "Christmas Day", none⟩] =
      ([⟨"StationA", ⟨2025, 12, 25⟩, "Holiday", some "RD", true, some "Christmas Day"⟩],
       ⟨true, "[" ++ normalize_station "StationA" ++ "] " ++ toString 1 ++
              " holidays loaded for " ++ toString 2025 ++ "."⟩) :=
  ⟨rfl,
   (c4_import_count_is_new_rows [] "StationA" 2025 [⟨"2025-12-25", "Christmas Day", none⟩]
      [⟨"StationA", ⟨2025, 12, 25⟩, "Holiday", some "RD", true, some "Christmas Day"⟩] 1 rfl).1,
   (c4_import_count_is_new_rows [] "StationA" 2025 [⟨"2025-12-25", "Christmas Day", none⟩]
      [⟨"StationA", ⟨2025, 12, 25⟩, "Holiday", some "RD", true, some "Christmas Day"⟩] 1 rfl).2⟩

/-- C4 counterexample: one provider record passes the county filter and
is merged — it overwrites the existing (StationA, 2025-12-25) row — yet
the reported count is 0, not the claimed 1. -/
theorem c4_overwrite_not_counted :
    (([⟨"2025-12-25", "Christmas Day", none⟩] : List HolidayRecord).filter qldFilter).length = 1 ∧
    fetch_qld_public_holidays
        [⟨"StationA", ⟨2025, 12, 25⟩, "Working", some "0 hours", false, none⟩]
        "StationA" 2025 [⟨"2025-12-25", "Christmas Day", none⟩] =
      ([⟨"StationA", ⟨2025, 12, 25⟩, "Holiday", some "RD", true, some "Christmas Day"⟩],
       ⟨true, "[StationA] 0 holidays loaded for 2025."⟩) :=
  ⟨rfl, rfl⟩

/-- C6 (amended): in every successful import run, each provider record
is merged — the same full-overwrite upsert as `upsert_public_holiday`
(status=Holiday, time_label="RD", is_public_holiday=true,
holiday_name=localName), applied to a fresh or an existing row alike —
if and only if its counties list is null/empty OR the marker "QLD"
occurs as a SUBSTRING OF THE CONCATENATION of its counties, not
necessarily as one of its elements; every other record is skipped and
leaves the store untouched: the final store is exactly the left fold of
the per-record merges gated by that condition. -/
theorem c6_county_filter (store : List CalendarEntry) (stQ : String) (year : Nat)
    (data : List HolidayRecord) (s2 : List CalendarEntry) (resp : FetchResponse)
    (hrun : fetch_qld_public_holidays store stQ year data = (s2, resp))
    (hok : resp.success = true) :
    s2 = data.foldl (fun acc item =>
      if (item.counties.getD []) = [] ∨
         containsQLD (String.join (item.counties.getD [])) = true
      then mergeStep (normalize_station stQ) item acc
      else acc) store := by
  simp only [fetch_qld_public_holidays] at hrun
  cases hloop : fetchLoop (normalize_station stQ) data store 0 with
  | ok p =>
    obtain ⟨store2, added⟩ := p
    simp only [hloop, Prod.mk.injEq] at hrun
    obtain ⟨h1, h2⟩ := hrun
    subst h1
    exact fetchLoop_foldl_merge (normalize_station stQ) data store 0 store2 added hloop
  | error u =>
    cases u
    simp only [hloop, Prod.mk.injEq] at hrun
    obtain ⟨h1, h2⟩ := hrun
    rw [← h2] at hok
    exact absurd hok (by simp)

/-- C6 witness: a two-record run on a station that already holds a row —
the national record (counties null) overwrites the existing Working row
in place, the Victorian record ("AU-VIC": non-empty, no "QLD" in the
concatenation) is skipped, and the final store equals the gated fold. -/
theorem c6_county_filter_witness :
    fetch_qld_public_holidays
        [⟨"StationA", ⟨2025, 12, 25⟩, "Working", some "0 hours", false, none⟩]
        "StationA" 2025
        [⟨"2025-12-25", "Christmas Day", none⟩,
         ⟨"2025-11-04", "Melbourne Cup", some ["AU-VIC"]⟩] =
      ([⟨"StationA", ⟨2025, 12, 25⟩, "Holiday", some "RD", true, some "Christmas Day"⟩],
       ⟨true, "[StationA] 0 holidays loaded for 2025."⟩) ∧
    (⟨true, "[StationA] 0 holidays loaded for 2025."⟩ : FetchResponse).success = true ∧
    [(⟨"StationA", ⟨2025, 12, 25⟩, "Holiday", some "RD", true, some "Christmas Day"⟩ :
        CalendarEntry)] =
      ([⟨"2025-12-25", "Christmas Day", none⟩,
        ⟨"2025-11-04", "Melbourne Cup", some ["AU-VIC"]⟩] : List HolidayRecord).foldl
        (fun acc item =>
          if (item.counties.getD []) = [] ∨
             containsQLD (String.join (item.counties.getD [])) = true
          then mergeStep (normalize_station "StationA") item acc
          else acc)
        [⟨"StationA", ⟨2025, 12, 25⟩, "Working", some "0 hours", false, none⟩] :=
  ⟨rfl, rfl,
   c6_county_filter
     [⟨"StationA", ⟨2025, 12, 25⟩, "Working", some "0 hours", false, none⟩]
     "StationA" 2025
     [⟨"2025-12-25", "Christmas Day", none⟩,
      ⟨"2025-11-04", "Melbourne Cup", some ["AU-VIC"]⟩]
     [⟨"StationA", ⟨2025, 12, 25⟩, "Holiday", some "RD", true, some "Christmas Day"⟩]
     ⟨true, "[StationA] 0 holidays loaded for 2025."⟩ rfl rfl⟩

/-- C6 counterexample: a record whose counties are ["AU-Q", "LD"] — the
list is non-empty, no element is (or even contains) the marker "QLD" —
is nonetheless merged, because "QLD" is a substring of the concatenation
"AU-QLD"; the claim as stated says such a record is skipped. -/
theorem c6_split_counties_still_merged :
    (["AU-Q", "LD"] : List String) ≠ [] ∧
    ¬ ("QLD" ∈ (["AU-Q", "LD"] : List String)) ∧
    containsQLD "AU-Q" = false ∧ containsQLD "LD" = false ∧
    (fetch_qld_public_holidays [] "StationA" 2025
        [⟨"2025-12-25", "Christmas Day", some ["AU-Q", "LD"]⟩]).1 =
      [⟨"StationA", ⟨2025, 12, 25⟩, "Holiday", some "RD", true, some "Christmas Day"⟩] :=
  ⟨by simp, by decide, rfl, rfl, rfl⟩

/-- C7 (amended): for a valid upsert, the stored `time_label` is the
supplied time STRIPPED OF WHITESPACE when that strip is non-empty, and
otherwise the default — "RD" for Holiday, "0 hours" for Working: a
whitespace-only supplied time is treated as absent, and a padded time is
stored trimmed rather than verbatim. -/
theorem c7_time_label_policy (store : List CalendarEntry) (stQ dstr status : String)
    (timeB : Option String) (dobj : PyDate) (s2 : List CalendarEntry) (r : Response)
    (hstatus : status = "Working" ∨ status = "Holiday")
    (hdate : _date_or_400 dstr = .ok dobj)
    (hrun : add_calendar_entry store stQ (some dstr) (some status) timeB = .ok (s2, r)) :
    (s2.find? (keyMatch (normalize_station stQ) dobj)).map
        (fun e => (e.status, e.time_label)) =
      some (status, some (if pyStrip (timeB.getD "") ≠ "" then pyStrip (timeB.getD "")
                          else if status = "Holiday" then "RD" else "0 hours")) := by
  simp only [add_calendar_entry, hdate] at hrun
  rw [if_pos hstatus] at hrun
  split at hrun
  · rename_i hfind
    simp only [Except.ok.injEq, Prod.mk.injEq] at hrun
    obtain ⟨h1, -⟩ := hrun; subst h1
    rw [find?_append_single _ _ _ hfind (by simp [keyMatch])]
    rfl
  · rename_i e0 hfind
    simp only [Except.ok.injEq, Prod.mk.injEq] at hrun
    obtain ⟨h1, -⟩ := hrun; subst h1
    rw [find?_updateFirst _ _ _
      (fun e => keyMatch_entryUpdate (normalize_station stQ) dobj status _ e)
      store e0 (fun x _ => rfl) hfind]
    rfl

/-- C7 witness: a Working upsert with no time gets "0 hours". -/
theorem c7_time_label_policy_witness :
    ("Working" = "Working" ∨ "Working" = "Holiday") ∧
    _date_or_400 "2025-01-01" = .ok ⟨2025, 1, 1⟩ ∧
    add_calendar_entry [] "StationA" (some "2025-01-01") (some "Working") none =
      .ok ([⟨"StationA", ⟨2025, 1, 1⟩, "Working", some "0 hours", false, none⟩],
           ⟨true, "[StationA] Added Working for 2025-01-01"⟩) ∧
    (([⟨"StationA", ⟨2025, 1, 1⟩, "Working", some "0 hours", false, none⟩] :
        List CalendarEntry).find? (keyMatch (normalize_station "StationA") ⟨2025, 1, 1⟩)).map
        (fun e => (e.status, e.time_label)) =
      some ("Working", some (if pyStrip ((none : Option String).getD "") ≠ ""
                             then pyStrip ((none : Option String).getD "")
                             else if "Working" = "Holiday" then "RD" else "0 hours")) :=
  ⟨Or.inl rfl, rfl, rfl,
   c7_time_label_policy [] "StationA" "2025-01-01" "Working" none ⟨2025, 1, 1⟩
     [⟨"StationA", ⟨2025, 1, 1⟩, "Working", some "0 hours", false, none⟩]
     ⟨true, "[StationA] Added Working for 2025-01-01"⟩ (Or.inl rfl) rfl rfl⟩

/-- C7 counterexample: the supplied time " " is a non-empty string, yet
the stored `time_label` is the default "0 hours", not " ": the code
strips the time and treats whitespace-only as absent, so the claim as
stated fails. -/
theorem c7_whitespace_time_not_stored :
    (" " : String) ≠ "" ∧
    add_calendar_entry [] "StationA" (some "2025-01-01") (some "Working") (some " ")
      = .ok ([⟨"StationA", ⟨2025, 1, 1⟩, "Working", some "0 hours", false, none⟩],
             ⟨true, "[StationA] Added Working for 2025-01-01"⟩) :=
  ⟨by decide, rfl⟩

/-- C8: a valid `add_calendar_entry` call on an existing (station, date)
row changes only `status` and `time_label`: the projection of the store
to (station, date, is_public_holiday, holiday_name) is unchanged,
whatever status is written. -/
theorem c8_upsert_preserves_holiday_fields (store : List CalendarEntry)
    (stQ dstr status : String) (timeB : Option String) (dobj : PyDate)
    (e0 : CalendarEntry) (s2 : List CalendarEntry) (r : Response)
    (hstatus : status = "Working" ∨ status = "Holiday")
    (hdate : _date_or_400 dstr = .ok dobj)
    (hex : store.find? (keyMatch (normalize_station stQ) dobj) = some e0)
    (hrun : add_calendar_entry store stQ (some dstr) (some status) timeB = .ok (s2, r)) :
    s2.map frameFields = store.map frameFields := by
  simp only [add_calendar_entry, hdate] at hrun
  rw [if_pos hstatus] at hrun
  simp only [hex, Except.ok.injEq, Prod.mk.injEq] at hrun
  obtain ⟨h1, -⟩ := hrun; subst h1
  exact map_updateFirst frameFields _ _
    (fun e => frameFields_entryUpdate status _ e) store

/-- C8 witness: toggling an existing public-holiday row to Working keeps
its holiday metadata. -/
theorem c8_upsert_preserves_holiday_fields_witness :
    ("Working" = "Working" ∨ "Working" = "Holiday") ∧
    _date_or_400 "2025-01-01" = .ok ⟨2025, 1, 1⟩ ∧
    ([⟨"StationA", ⟨2025, 1, 1⟩, "Holiday", some "RD", true, some "New Year"⟩] :
        List CalendarEntry).find? (keyMatch (normalize_station "StationA") ⟨2025, 1, 1⟩) =
      some ⟨"StationA", ⟨2025, 1, 1⟩, "Holiday", some "RD", true, some "New Year"⟩ ∧
    add_calendar_entry [⟨"StationA", ⟨2025, 1, 1⟩, "Holiday", some "RD", true, some "New Year"⟩]
        "StationA" (some "2025-01-01") (some "Working") none =
      .ok ([⟨"StationA", ⟨2025, 1, 1⟩, "Working", some "0 hours", true, some "New Year"⟩],
           ⟨true, "[StationA] Added Working for 2025-01-01"⟩) ∧
    ([⟨"StationA", ⟨2025, 1, 1⟩, "Working", some "0 hours", true, some "New Year"⟩] :
        List CalendarEntry).map frameFields =
      ([⟨"StationA", ⟨2025, 1, 1⟩, "Holiday", some "RD", true, some "New Year"⟩] :
        List CalendarEntry).map frameFields :=
  ⟨Or.inl rfl, rfl, rfl, rfl,
   c8_upsert_preserves_holiday_fields
     [⟨"StationA", ⟨2025, 1, 1⟩, "Holiday", some "RD", true, some "New Year"⟩]
     "StationA" "2025-01-01" "Working" none ⟨2025, 1, 1⟩
     ⟨"StationA", ⟨2025, 1, 1⟩, "Holiday", some "RD", true, some "New Year"⟩
     [⟨"StationA", ⟨2025, 1, 1⟩, "Working", some "0 hours", true, some "New Year"⟩]
     ⟨true, "[StationA] Added Working for 2025-01-01"⟩ (Or.inl rfl) rfl rfl rfl⟩

theorem importStationCal_mem (station : String) (b : StationBuckets) :
    ∀ (cal : List (String × String)) (es : List CalendarEntry),
      importStationCal station b cal = .ok es → ∀ e ∈ es,
      ∃ ds status, (ds, status) ∈ cal ∧ fromisoformat ds = some e.date ∧
        e.status = status ∧ e.station = normalize_station station
  | [], es, hrun, e, he => by
    simp only [importStationCal, Except.ok.injEq] at hrun
    subst hrun
    simp at he
  | (d, status) :: rest, es, hrun, e, he => by
    rw [importStationCal] at hrun
    by_cases hre : matchesDateRe d
    · rw [if_pos hre] at hrun
      cases hiso : fromisoformat d with
      | none =>
        simp only [hiso] at hrun
        exact absurd hrun (by simp)
      | some dobj =>
        simp only [hiso] at hrun
        cases hrec : importStationCal station b rest with
        | error u =>
          cases u
          simp only [hrec] at hrun
          exact absurd hrun (by simp)
        | ok es' =>
          simp only [hrec, Except.ok.injEq] at hrun
          subst hrun
          rcases List.mem_cons.mp he with he | he
          · subst he
            exact ⟨d, status, List.mem_cons_self _ _, hiso, rfl, rfl⟩
          · obtain ⟨ds, st', hmem, h1, h2, h3⟩ :=
              importStationCal_mem station b rest es' hrec e he
            exact ⟨ds, st', List.mem_cons_of_mem _ hmem, h1, h2, h3⟩
    · rw [if_neg hre] at hrun
      obtain ⟨ds, st', hmem, h1, h2, h3⟩ :=
        importStationCal_mem station b rest es hrun e he
      exact ⟨ds, st', List.mem_cons_of_mem _ hmem, h1, h2, h3⟩

theorem importStations_mem :
    ∀ (l : List (String × StationBuckets)) (es : List CalendarEntry),
      importStations l = .ok es → ∀ e ∈ es,
      ∃ stb ∈ l, ∃ ds status, (ds, status) ∈ stb.2.calendar_data ∧
        fromisoformat ds = some e.date ∧ e.status = status ∧
        e.station = normalize_station stb.1
  | [], es, hrun, e, he => by
    simp only [importStations, Except.ok.injEq] at hrun
    subst hrun
    simp at he
  | (st, b) :: rest, es, hrun, e, he => by
    rw [importStations] at hrun
    split at hrun
    · exact absurd hrun (by simp)
    · rename_i es1 hcal
      split at hrun
      · rename_i es2 hrest
        simp only [Except.ok.injEq] at hrun
        subst hrun
        rcases List.mem_append.mp he with he | he
        · obtain ⟨ds, st', hmem, h1, h2, h3⟩ :=
            importStationCal_mem st b b.calendar_data es1 hcal e he
          exact ⟨(st, b), List.mem_cons_self _ _, ds, st', hmem, h1, h2, h3⟩
        · obtain ⟨stb, hstb, hrest'⟩ := importStations_mem rest es2 hrest e he
          exact ⟨stb, List.mem_cons_of_mem _ hstb, hrest'⟩
      · exact absurd hrun (by simp)

/-- C10: the startup importer creates a `CalendarEntry` only for dates
appearing as keys of some station's `calendar_data` mapping: every
imported entry's date, status and station come from a `calendar_data`
item; so a date listed only under `public_holidays` (or
`calendar_times`) produces no entry and its holiday name is dropped. -/
theorem c10_import_only_from_calendar_data (snap : LegacySnapshot)
    (es : List CalendarEntry) (hrun : importSnapshot snap = .ok es)
    (e : CalendarEntry) (he : e ∈ es) :
    ∃ stb ∈ effectiveStations snap, ∃ ds status,
      (ds, status) ∈ stb.2.calendar_data ∧ fromisoformat ds = some e.date ∧
      e.status = status ∧ e.station = normalize_station stb.1 :=
  importStations_mem (effectiveStations snap) es hrun e he

/-- C10 witness: a flat snapshot whose `public_holidays` lists 2025-01-02
while `calendar_data` only has 2025-01-01 imports exactly one entry, and
the theorem locates that entry's date in `calendar_data`. -/
theorem c10_import_only_from_calendar_data_witness :
    importSnapshot ⟨none, [("2025-01-01", "Holiday")], [], [("2025-01-02", "New Year")]⟩ =
      .ok [⟨"StationA", ⟨2025, 1, 1⟩, "Holiday", some "RD", false, none⟩] ∧
    (⟨"StationA", ⟨2025, 1, 1⟩, "Holiday", some "RD", false, none⟩ : CalendarEntry) ∈
      [(⟨"StationA", ⟨2025, 1, 1⟩, "Holiday", some "RD", false, none⟩ : CalendarEntry)] ∧
    ∃ stb ∈ effectiveStations
        ⟨none, [("2025-01-01", "Holiday")], [], [("2025-01-02", "New Year")]⟩,
      ∃ ds status, (ds, status) ∈ stb.2.calendar_data ∧
        fromisoformat ds = some (⟨"StationA", ⟨2025, 1, 1⟩, "Holiday", some "RD", false,
          none⟩ : CalendarEntry).date ∧
        (⟨"StationA", ⟨2025, 1, 1⟩, "Holiday", some "RD", false, none⟩ :
          CalendarEntry).status = status ∧
        (⟨"StationA", ⟨2025, 1, 1⟩, "Holiday", some "RD", false, none⟩ :
          CalendarEntry).station = normalize_station stb.1 :=
  ⟨rfl, List.mem_cons_self _ _,
   c10_import_only_from_calendar_data
     ⟨none, [("2025-01-01", "Holiday")], [], [("2025-01-02", "New Year")]⟩
     [⟨"StationA", ⟨2025, 1, 1⟩, "Holiday", some "RD", false, none⟩] rfl
     ⟨"StationA", ⟨2025, 1, 1⟩, "Holiday", some "RD", false, none⟩
     (List.mem_cons_self _ _)⟩

theorem lookupA_nil (k : String) : lookupA k [] = none := rfl

theorem lookupA_cons (k k1 v1 : String) (t : List (String × String)) :
    lookupA k ((k1, v1) :: t) =
      if (k1 == k) = true then some v1 else lookupA k t := by
  by_cases h : (k1 == k) = true
  · rw [if_pos h]
    unfold lookupA
    rw [@List.find?_cons_of_pos _ (fun p => p.1 == k) (k1, v1) t h]
    rfl
  · rw [if_neg h]
    unfold lookupA
    rw [@List.find?_cons_of_neg _ (fun p => p.1 == k) (k1, v1) t h]

theorem lookupA_setKey_self (k v : String) :
    ∀ l : List (String × String), lookupA k (setKey k v l) = some v
  | [] => by rw [setKey, lookupA_cons, if_pos (by simp)]
  | (k0, v0) :: rest => by
    rw [setKey]
    by_cases h : (k0 == k) = true
    · rw [if_pos h, lookupA_cons, if_pos h]
    · rw [if_neg h, lookupA_cons, if_neg h]
      exact lookupA_setKey_self k v rest

theorem lookupA_setKey_ne (k k0 v : String) (hne : (k0 == k) = false) :
    ∀ l : List (String × String), lookupA k (setKey k0 v l) = lookupA k l
  | [] => by rw [setKey, lookupA_cons, if_neg (by simp [hne]), lookupA_nil]
  | (k1, v1) :: rest => by
    rw [setKey]
    by_cases h : (k1 == k0) = true
    · have hk1 : (k1 == k) = false := by rw [eq_of_beq h]; exact hne
      rw [if_pos h, lookupA_cons, if_neg (by simp [hk1]), lookupA_cons,
          if_neg (by simp [hk1])]
    · rw [if_neg h, lookupA_cons, lookupA_cons]
      by_cases h2 : (k1 == k) = true
      · rw [if_pos h2, if_pos h2]
      · rw [if_neg h2, if_neg h2]
        exact lookupA_setKey_ne k k0 v hne rest

theorem timesUpdate_none (key : String) (m : List (String × String)) :
    timesUpdate key none m = m := rfl

theorem timesUpdate_some (key t : String) (m : List (String × String)) :
    timesUpdate key (some t) m = if t == "" then m else setKey key t m := rfl

theorem phUpdate_none (key : String) (b : Bool) (m : List (String × String)) :
    phUpdate key b none m = m := rfl

theorem phUpdate_some (key : String) (b : Bool) (n : String)
    (m : List (String × String)) :
    phUpdate key b (some n) m = if b && !(n == "") then setKey key n m else m := rfl

theorem viewStep_cd (acc : CalendarView) (r : CalendarEntry) :
    (viewStep acc r).calendar_data =
      setKey (isoformat r.date) r.status acc.calendar_data := rfl

theorem viewStep_ct (acc : CalendarView) (r : CalendarEntry) :
    (viewStep acc r).calendar_times =
      timesUpdate (isoformat r.date) r.time_label acc.calendar_times := rfl

theorem viewStep_ph (acc : CalendarView) (r : CalendarEntry) :
    (viewStep acc r).public_holidays =
      phUpdate (isoformat r.date) r.is_public_holiday r.holiday_name
        acc.public_holidays := rfl

theorem lookupA_timesUpdate_ne (k key : String) (tl : Option String)
    (m : List (String × String)) (hne : (key == k) = false) :
    lookupA k (timesUpdate key tl m) = lookupA k m := by
  cases tl with
  | none => rw [timesUpdate_none]
  | some t =>
    rw [timesUpdate_some]
    by_cases h0 : (t == "") = true
    · rw [if_pos h0]
    · rw [if_neg h0]
      exact lookupA_setKey_ne k key t hne m

theorem lookupA_phUpdate_ne (k key : String) (b : Bool) (hn : Option String)
    (m : List (String × String)) (hne : (key == k) = false) :
    lookupA k (phUpdate key b hn m) = lookupA k m := by
  cases hn with
  | none => rw [phUpdate_none]
  | some n =>
    rw [phUpdate_some]
    by_cases h0 : (b && !(n == "")) = true
    · rw [if_pos h0]
      exact lookupA_setKey_ne k key n hne m
    · rw [if_neg h0]

theorem lookupA_setKey_congr (k v : String) (m1 m2 : List (String × String)) :
    lookupA k (setKey k v m1) = lookupA k (setKey k v m2) := by
  rw [lookupA_setKey_self, lookupA_setKey_self]

theorem lookupA_timesUpdate_congr (k : String) (tl : Option String)
    (m1 m2 : List (String × String)) (h : lookupA k m1 = lookupA k m2) :
    lookupA k (timesUpdate k tl m1) = lookupA k (timesUpdate k tl m2) := by
  cases tl with
  | none => rw [timesUpdate_none, timesUpdate_none]; exact h
  | some t =>
    rw [timesUpdate_some, timesUpdate_some]
    by_cases h0 : (t == "") = true
    · rw [if_pos h0, if_pos h0]; exact h
    · rw [if_neg h0, if_neg h0, lookupA_setKey_self, lookupA_setKey_self]

theorem lookupA_phUpdate_congr (k : String) (b : Bool) (hn : Option String)
    (m1 m2 : List (String × String)) (h : lookupA k m1 = lookupA k m2) :
    lookupA k (phUpdate k b hn m1) = lookupA k (phUpdate k b hn m2) := by
  cases hn with
  | none => rw [phUpdate_none, phUpdate_none]; exact h
  | some n =>
    rw [phUpdate_some, phUpdate_some]
    by_cases h0 : (b && !(n == "")) = true
    · rw [if_pos h0, if_pos h0, lookupA_setKey_self, lookupA_setKey_self]
    · rw [if_neg h0, if_neg h0]; exact h

theorem viewStep_lookup_ne (k : String) (acc : CalendarView) (r : CalendarEntry)
    (hne : (isoformat r.date == k) = false) :
    lookupA k (viewStep acc r).calendar_data = lookupA k acc.calendar_data ∧
    lookupA k (viewStep acc r).calendar_times = lookupA k acc.calendar_times ∧
    lookupA k (viewStep acc r).public_holidays = lookupA k acc.public_holidays := by
  refine ⟨?_, ?_, ?_⟩
  · rw [viewStep_cd]
    exact lookupA_setKey_ne k _ _ hne acc.calendar_data
  · rw [viewStep_ct]
    exact lookupA_timesUpdate_ne k _ _ _ hne
  · rw [viewStep_ph]
    exact lookupA_phUpdate_ne k _ _ _ _ hne

theorem viewFold_nokey (k : String) :
    ∀ (rows : List CalendarEntry) (acc : CalendarView),
      (∀ r ∈ rows, (isoformat r.date == k) = false) →
      lookupA k ((rows.foldl viewStep acc).calendar_data) = lookupA k acc.calendar_data ∧
      lookupA k ((rows.foldl viewStep acc).calendar_times) = lookupA k acc.calendar_times ∧
      lookupA k ((rows.foldl viewStep acc).public_holidays) = lookupA k acc.public_holidays
  | [], acc, _ => ⟨rfl, rfl, rfl⟩
  | r :: rest, acc, h => by
    have h1 := viewStep_lookup_ne k acc r (h r (List.mem_cons_self r rest))
    have h2 := viewFold_nokey k rest (viewStep acc r)
      (fun x hx => h x (List.mem_cons_of_mem r hx))
    rw [List.foldl_cons]
    exact ⟨h2.1.trans h1.1, h2.2.1.trans h1.2.1, h2.2.2.trans h1.2.2⟩

/-- Where the maps built by `get_calendar_data`'s row loop send a key `k`
when the row list contains at most one row rendering to `k` and `r` is
that row: `k` is looked up as if `r` alone had been written over the
initial accumulator. -/
theorem viewFold_lookup_found (k : String) :
    ∀ (rows : List CalendarEntry) (acc : CalendarView) (r : CalendarEntry),
      rows.countP (fun x => isoformat x.date == k) ≤ 1 →
      rows.find? (fun x => isoformat x.date == k) = some r →
      lookupA k ((rows.foldl viewStep acc).calendar_data) =
        lookupA k (setKey k r.status acc.calendar_data) ∧
      lookupA k ((rows.foldl viewStep acc).calendar_times) =
        lookupA k (timesUpdate k r.time_label acc.calendar_times) ∧
      lookupA k ((rows.foldl viewStep acc).public_holidays) =
        lookupA k (phUpdate k r.is_public_holiday r.holiday_name acc.public_holidays)
  | [], _, _, _, hfind => by simp at hfind
  | x :: rest, acc, r, hc, hfind => by
    by_cases hp : (isoformat x.date == k) = true
    · have hfx : List.find? (fun y => isoformat y.date == k) (x :: rest) = some x :=
        List.find?_cons_of_pos rest hp
      have hxr : x = r := Option.some.inj (hfx ▸ hfind)
      subst hxr
      have hrest0 : rest.countP (fun y => isoformat y.date == k) = 0 := by
        rw [List.countP_cons, if_pos hp] at hc
        omega
      have hnone : ∀ y ∈ rest, (isoformat y.date == k) = false := by
        intro y hy
        have hny := List.countP_eq_zero.mp hrest0 y hy
        cases hb : (isoformat y.date == k) with
        | false => rfl
        | true => exact absurd hb hny
      have hfold := viewFold_nokey k rest (viewStep acc x) hnone
      rw [List.foldl_cons]
      have hkey : isoformat x.date = k := eq_of_beq hp
      refine ⟨?_, ?_, ?_⟩
      · rw [hfold.1, viewStep_cd, hkey]
      · rw [hfold.2.1, viewStep_ct, hkey]
      · rw [hfold.2.2, viewStep_ph, hkey]
    · have hfx : List.find? (fun y => isoformat y.date == k) (x :: rest) =
          List.find? (fun y => isoformat y.date == k) rest :=
        List.find?_cons_of_neg rest hp
      have hfind' : rest.find? (fun y => isoformat y.date == k) = some r :=
        hfx ▸ hfind
      have hc' : rest.countP (fun y => isoformat y.date == k) ≤ 1 := by
        rw [List.countP_cons, if_neg hp] at hc
        omega
      have hpx : (isoformat x.date == k) = false := by
        cases hb : (isoformat x.date == k) with
        | false => rfl
        | true => exact absurd hb hp
      have step := viewStep_lookup_ne k acc x hpx
      have ih := viewFold_lookup_found k rest (viewStep acc x) r hc' hfind'
      rw [List.foldl_cons]
      refine ⟨?_, ?_, ?_⟩
      · rw [ih.1]
        exact lookupA_setKey_congr k r.status _ acc.calendar_data
      · rw [ih.2.1]
        exact lookupA_timesUpdate_congr k r.time_label _ acc.calendar_times step.2.1
      · rw [ih.2.2]
        exact lookupA_phUpdate_congr k r.is_public_holiday r.holiday_name _
          acc.public_holidays step.2.2

theorem viewKey_holidayUpdate (st k name : String) (e : CalendarEntry) :
    ((holidayUpdate name e).station == st &&
        (isoformat (holidayUpdate name e).date == k)) =
      (e.station == st && (isoformat e.date == k)) := rfl

/-- C9 (amended): for a date string that is the exact `YYYY-MM-DD`
rendering of its date and a name X with non-whitespace content,
`add_public_holiday(d, X)` followed by `get_calendar_data` on the same
station shows date d as Holiday with time "RD" and the name X STRIPPED
of surrounding whitespace (a whitespace-only X is rejected outright),
whatever single entry previously existed at (station, d) — presupposing
the store holds at most one row at that key and no other row of the
station renders to the same date string. -/
theorem c9_public_holiday_roundtrip (store : List CalendarEntry)
    (stQ dstr X : String) (dobj : PyDate) (s2 : List CalendarEntry) (r : Response)
    (htrim : pyStrip dstr = dstr) (hdne : dstr ≠ "")
    (hdate : _date_or_400 dstr = .ok dobj)
    (hiso : isoformat dobj = dstr)
    (hXne : pyStrip X ≠ "")
    (hkey : ∀ e ∈ store, e.station = normalize_station stQ →
      isoformat e.date = dstr → e.date = dobj)
    (hcount : store.countP (keyMatch (normalize_station stQ) dobj) ≤ 1)
    (hrun : add_public_holiday store stQ (some dstr) (some X) = .ok (s2, r)) :
    r.success = true ∧
    lookupA dstr (get_calendar_data s2 stQ).calendar_data = some "Holiday" ∧
    lookupA dstr (get_calendar_data s2 stQ).calendar_times = some "RD" ∧
    lookupA dstr (get_calendar_data s2 stQ).public_holidays = some (pyStrip X) := by
  have hnot : ¬ (dstr = "" ∨ pyStrip X = "") := not_or.mpr ⟨hdne, hXne⟩
  have hXfalse : (pyStrip X == "") = false := beq_eq_false_iff_ne.mpr hXne
  simp only [add_public_holiday, Option.getD_some, htrim, hdate] at hrun
  rw [if_neg hnot] at hrun
  cases hfind : store.find? (keyMatch (normalize_station stQ) dobj) with
  | none =>
    simp only [hfind, Except.ok.injEq, Prod.mk.injEq] at hrun
    obtain ⟨h1, h2⟩ := hrun
    subst h1; subst h2
    refine ⟨rfl, ?_⟩
    have hzero : ∀ e ∈ store,
        ((e.station == normalize_station stQ) && (isoformat e.date == dstr)) = false := by
      intro e he
      cases hb : ((e.station == normalize_station stQ) && (isoformat e.date == dstr)) with
      | false => rfl
      | true =>
        exfalso
        rw [Bool.and_eq_true] at hb
        have hde : e.date = dobj := hkey e he (eq_of_beq hb.1) (eq_of_beq hb.2)
        have hkm : keyMatch (normalize_station stQ) dobj e = true := by
          simp [keyMatch, eq_of_beq hb.1, hde]
        exact (List.find?_eq_none.mp hfind e he) hkm
    have hPmk : (((⟨normalize_station stQ, dobj, "Holiday", some "RD", true,
          some (pyStrip X)⟩ : CalendarEntry).station == normalize_station stQ) &&
        (isoformat (⟨normalize_station stQ, dobj, "Holiday", some "RD", true,
          some (pyStrip X)⟩ : CalendarEntry).date == dstr)) = true := by
      simp [hiso]
    have hfnd2 : (store ++ [(⟨normalize_station stQ, dobj, "Holiday", some "RD", true,
          some (pyStrip X)⟩ : CalendarEntry)]).find?
        (fun e => (e.station == normalize_station stQ) && (isoformat e.date == dstr)) =
        some ⟨normalize_station stQ, dobj, "Holiday", some "RD", true, some (pyStrip X)⟩ :=
      find?_append_single
        (fun e => (e.station == normalize_station stQ) && (isoformat e.date == dstr))
        store
        ⟨normalize_station stQ, dobj, "Holiday", some "RD", true, some (pyStrip X)⟩
        (List.find?_eq_none.mpr (fun x hx => by simp [hzero x hx])) hPmk
    have hcnt2 : (store ++ [(⟨normalize_station stQ, dobj, "Holiday", some "RD", true,
          some (pyStrip X)⟩ : CalendarEntry)]).countP
        (fun e => (e.station == normalize_station stQ) && (isoformat e.date == dstr)) ≤ 1 := by
      rw [List.countP_append]
      have h0 : store.countP
          (fun e => (e.station == normalize_station stQ) && (isoformat e.date == dstr)) = 0 :=
        List.countP_eq_zero.mpr (fun x hx => by simp [hzero x hx])
      rw [h0]
      simp [List.countP_cons, hPmk, hiso]
    simp only [get_calendar_data]
    have hrows_find : ((store ++ [(⟨normalize_station stQ, dobj, "Holiday", some "RD", true,
          some (pyStrip X)⟩ : CalendarEntry)]).filter (fun e => e.station == normalize_station stQ)).find?
        (fun y => isoformat y.date == dstr) =
        some ⟨normalize_station stQ, dobj, "Holiday", some "RD", true, some (pyStrip X)⟩ := by
      rw [find?_filter_comm]
      exact hfnd2
    have hrows_cnt : ((store ++ [(⟨normalize_station stQ, dobj, "Holiday", some "RD", true,
          some (pyStrip X)⟩ : CalendarEntry)]).filter (fun e => e.station == normalize_station stQ)).countP
        (fun y => isoformat y.date == dstr) ≤ 1 := by
      rw [List.countP_filter]
      rw [countP_congr_mem
        (fun a : CalendarEntry => (isoformat a.date == dstr) &&
          (a.station == normalize_station stQ))
        (fun a : CalendarEntry => (a.station == normalize_station stQ) &&
          (isoformat a.date == dstr))
        _ (fun x _ => Bool.and_comm _ _)]
      exact hcnt2
    have hview := viewFold_lookup_found dstr
      ((store ++ [(⟨normalize_station stQ, dobj, "Holiday", some "RD", true,
          some (pyStrip X)⟩ : CalendarEntry)]).filter (fun e => e.station == normalize_station stQ))
      ⟨normalize_station stQ, [], [], []⟩
      ⟨normalize_station stQ, dobj, "Holiday", some "RD", true, some (pyStrip X)⟩
      hrows_cnt hrows_find
    refine ⟨?_, ?_, ?_⟩
    · rw [hview.1]
      exact lookupA_setKey_self dstr _ []
    · rw [hview.2.1]
      show lookupA dstr (timesUpdate dstr (some "RD") []) = some "RD"
      rw [timesUpdate_some, if_neg (by decide)]
      exact lookupA_setKey_self dstr "RD" []
    · rw [hview.2.2]
      show lookupA dstr (phUpdate dstr true (some (pyStrip X)) []) = some (pyStrip X)
      rw [phUpdate_some, if_pos (by simp [hXfalse])]
      exact lookupA_setKey_self dstr (pyStrip X) []
  | some e0 =>
    simp only [hfind, Except.ok.injEq, Prod.mk.injEq] at hrun
    obtain ⟨h1, h2⟩ := hrun
    subst h1; subst h2
    refine ⟨rfl, ?_⟩
    have hPkm : ∀ e ∈ store,
        ((e.station == normalize_station stQ) && (isoformat e.date == dstr)) =
          keyMatch (normalize_station stQ) dobj e := by
      intro e he
      cases hb : keyMatch (normalize_station stQ) dobj e with
      | true =>
        obtain ⟨hs, hd⟩ := keyMatch_fields hb
        simp [hs, hd, hiso]
      | false =>
        cases hb2 : ((e.station == normalize_station stQ) && (isoformat e.date == dstr)) with
        | false => rfl
        | true =>
          exfalso
          rw [Bool.and_eq_true] at hb2
          have hde : e.date = dobj := hkey e he (eq_of_beq hb2.1) (eq_of_beq hb2.2)
          have hkm : keyMatch (normalize_station stQ) dobj e = true := by
            simp [keyMatch, eq_of_beq hb2.1, hde]
          rw [hb] at hkm
          exact Bool.false_ne_true hkm
    have hfnd2 : (updateFirst (keyMatch (normalize_station stQ) dobj)
          (holidayUpdate (pyStrip X)) store).find?
        (fun e => (e.station == normalize_station stQ) && (isoformat e.date == dstr)) =
        some (holidayUpdate (pyStrip X) e0) :=
      find?_updateFirst _ _ _
        (fun e => viewKey_holidayUpdate (normalize_station stQ) dstr (pyStrip X) e)
        store e0 hPkm hfind
    have hcnt2 : (updateFirst (keyMatch (normalize_station stQ) dobj)
          (holidayUpdate (pyStrip X)) store).countP
        (fun e => (e.station == normalize_station stQ) && (isoformat e.date == dstr)) ≤ 1 := by
      rw [countP_updateFirst _ _ _
        (fun e => viewKey_holidayUpdate (normalize_station stQ) dstr (pyStrip X) e)]
      rw [countP_congr_mem _ _ store hPkm]
      exact hcount
    simp only [get_calendar_data]
    have hrows_find : ((updateFirst (keyMatch (normalize_station stQ) dobj)
          (holidayUpdate (pyStrip X)) store).filter
          (fun e => e.station == normalize_station stQ)).find?
        (fun y => isoformat y.date == dstr) = some (holidayUpdate (pyStrip X) e0) := by
      rw [find?_filter_comm]
      exact hfnd2
    have hrows_cnt : ((updateFirst (keyMatch (normalize_station stQ) dobj)
          (holidayUpdate (pyStrip X)) store).filter
          (fun e => e.station == normalize_station stQ)).countP
        (fun y => isoformat y.date == dstr) ≤ 1 := by
      rw [List.countP_filter]
      rw [countP_congr_mem
        (fun a : CalendarEntry => (isoformat a.date == dstr) &&
          (a.station == normalize_station stQ))
        (fun a : CalendarEntry => (a.station == normalize_station stQ) &&
          (isoformat a.date == dstr))
        _ (fun x _ => Bool.and_comm _ _)]
      exact hcnt2
    have hview := viewFold_lookup_found dstr
      ((updateFirst (keyMatch (normalize_station stQ) dobj)
          (holidayUpdate (pyStrip X)) store).filter
          (fun e => e.station == normalize_station stQ))
      ⟨normalize_station stQ, [], [], []⟩
      (holidayUpdate (pyStrip X) e0) hrows_cnt hrows_find
    refine ⟨?_, ?_, ?_⟩
    · rw [hview.1]
      exact lookupA_setKey_self dstr _ []
    · rw [hview.2.1]
      show lookupA dstr (timesUpdate dstr (some "RD") []) = some "RD"
      rw [timesUpdate_some, if_neg (by decide)]
      exact lookupA_setKey_self dstr "RD" []
    · rw [hview.2.2]
      show lookupA dstr (phUpdate dstr true (some (pyStrip X)) []) = some (pyStrip X)
      rw [phUpdate_some, if_pos (by simp [hXfalse])]
      exact lookupA_setKey_self dstr (pyStrip X) []

/-- C9 witness: adding " New Year " (stored trimmed) on an empty store
and reading the calendar back. -/
theorem c9_public_holiday_roundtrip_witness :
    pyStrip " New Year " ≠ "" ∧
    ((⟨true, "[StationA] Added public holiday New Year on 2025-01-01"⟩ :
        Response).success = true ∧
      lookupA "2025-01-01" (get_calendar_data
        [⟨"StationA", ⟨2025, 1, 1⟩, "Holiday", some "RD", true, some "New Year"⟩]
        "StationA").calendar_data = some "Holiday" ∧
      lookupA "2025-01-01" (get_calendar_data
        [⟨"StationA", ⟨2025, 1, 1⟩, "Holiday", some "RD", true, some "New Year"⟩]
        "StationA").calendar_times = some "RD" ∧
      lookupA "2025-01-01" (get_calendar_data
        [⟨"StationA", ⟨2025, 1, 1⟩, "Holiday", some "RD", true, some "New Year"⟩]
        "StationA").public_holidays = some (pyStrip " New Year ")) :=
  ⟨by decide,
   c9_public_holiday_roundtrip [] "StationA" "2025-01-01" " New Year " ⟨2025, 1, 1⟩
     [⟨"StationA", ⟨2025, 1, 1⟩, "Holiday", some "RD", true, some "New Year"⟩]
     ⟨true, "[StationA] Added public holiday New Year on 2025-01-01"⟩
     rfl (by decide) rfl rfl (by decide) (fun e he => absurd he (List.not_mem_nil e))
     (by simp) rfl⟩

/-- C9 counterexample: the name " " is a non-empty string, yet the
round-trip fails — the write is rejected as "Missing date or name"
(the code strips the name first), and the calendar shows no holiday
name at the date, contradicting the claim for every non-empty X. -/
theorem c9_whitespace_name_rejected :
    (" " : String) ≠ "" ∧
    add_public_holiday [] "StationA" (some "2025-01-01") (some " ") =
      .ok ([], ⟨false, "Missing date or name"⟩) ∧
    lookupA "2025-01-01" (get_calendar_data [] "StationA").public_holidays = none :=
  ⟨by decide, rfl, rfl⟩

